import Mathlib

/-!
# Verification of `rwtools/graphtools/solvers.py`

A shallow embedding of the multi-backend linear-system solving layer of the
`randomwalkertools` repository, together with theorems settling the frozen
claims about it.

Modelling conventions:

* Numeric values are idealized as exact rationals (`ℚ`); precision casts such
  as `.astype(np.float32)` are value-preserving in the model and the *dtype*
  of each array is tracked separately in an explicit `DType` field, which is
  where the claims about 32-bit output live.
* External numerical routines (`scipy.sparse.linalg.cg`,
  `scipy.sparse.linalg.spsolve`, `sksparse.cholmod.cholesky`,
  `cupyx ... splu` / `cg`, `pyamg`) are not code of this repository; they are
  taken as explicit oracle parameters of the embedded functions, so every
  theorem quantifies over (or instantiates) their behaviour.  The control
  flow, looping, accumulation, casting and fallback logic around the oracles
  is translated line by line from `solvers.py`.
* A numpy array is modelled column-major (`cols` lists the columns), because
  the solvers only ever access `b` by columns `b[:, i]` and build results as
  lists of columns transposed at the end (`np.array(pu).T`).
-/

/-- Numpy dtypes that occur in `solvers.py`. -/
inductive DType
  | f32
  | f64
  deriving DecidableEq

/-- A numpy (or scipy sparse) 2-d array, column-major: `cols` lists the
columns, each of length `nrows` for well-formed input.  `isDense` models the
`type(b) == np.ndarray` test used by the solvers to decide between
`b[:, i]` and `b[:, i].todense()`. -/
structure Arr where
  dtype : DType
  isDense : Bool
  nrows : Nat
  cols : List (List ℚ)
  deriving DecidableEq

/-- A vector of exact values (one column of an array). -/
abbrev Vecq := List ℚ

/-- The system matrix `A`.  The solvers never inspect its entries; they only
convert its storage format and hand it to external routines, so a dense
row-list of its values is a faithful value-level representation. -/
abbrev Mat := List (List ℚ)

/-- `scipy.sparse.csr_matrix(A)`: a storage-format conversion, value
preserving. -/
def csr_matrix (A : Mat) : Mat := A

/-- `.todense()` on a sparse column: value preserving. -/
def todense (v : Vecq) : Vecq := v

/-- `.astype(np.float32)` on a column: the values are modelled exactly, so the
cast is value preserving (precision is tracked at the array level). -/
def astype_f32 (v : Vecq) : Vecq := v

/-- In-place `x -= y` on numpy vectors (elementwise subtraction). -/
def vsub (a x : Vecq) : Vecq := List.zipWith (fun p q => p - q) a x

/-- The multigrid preconditioning operator built by
`pyamg.ruge_stuben_solver(A, coarse_solver='gauss_seidel').aspreconditioner(cycle='V')`.
The external pyamg object is opaque to the solver code; it is represented by
the matrix it was built from. -/
structure Precond where
  mat : Mat
  deriving DecidableEq

/-- `mg_preconditioner(A)` from `solvers.py`: builds the pyamg
Ruge-Stuben V-cycle preconditioner for `A`. -/
def mg_preconditioner (A : Mat) : Precond := ⟨A⟩

/-- The behaviour of the external `scipy.sparse.linalg.cg(A, b, tol=tol, M=M)`
routine: given the matrix, the right-hand-side column, the tolerance and an
optional preconditioner it returns the pair `(x, info)` where `info` is
scipy's convergence indicator (`0` = converged, `> 0` = iteration budget
exhausted without convergence). -/
abbrev CGOracle := Mat → Vecq → ℚ → Option Precond → Vecq × Int

/-- Python truthiness of the `pre_conditioner` argument, which is passed as
`True`, `False` or `None` by the callers in `solvers.py`. -/
def pyTruthy : Option Bool → Bool
  | none => false
  | some b => b

/-- The column loop of `solve_cg_mg`:
```
for i in range(b.shape[-1] - 1):
    _b = b[:, i].astype(np.float32) if check_type else b[:, i].todense().astype(np.float32)
    _pu = cg(A, _b, tol=tol, M=M)[0].astype(np.float32)
    _pu_sum -= _pu
    pu.append(_pu)
```
`cs` is the list of columns iterated over (all but the last), `pu_sum` the
running remainder accumulator; the result is the list of solved columns
together with the final accumulator.  Note `[0]`: only the solution component
of the cg oracle's output is used, the `info` component is dropped. -/
def cgColumns (cgO : CGOracle) (Ac : Mat) (tol : ℚ) (M : Option Precond)
    (check_type : Bool) : List Vecq → Vecq → List Vecq × Vecq
  | [], pu_sum => ([], pu_sum)
  | c :: cs, pu_sum =>
    let _b := if check_type then astype_f32 c else astype_f32 (todense c)
    let _pu := astype_f32 (cgO Ac _b tol M).1
    let rest := cgColumns cgO Ac tol M check_type cs (vsub pu_sum _pu)
    (_pu :: rest.1, rest.2)

/-- `solve_cg_mg(A, b, tol=1.e-3, pre_conditioner=True)` from `solvers.py`.

`cgO` is the external `scipy.sparse.linalg.cg` routine and
`use_direct_solver_mg` the module-level flag recording whether importing
pyamg failed.  Line by line: convert `A` to csr; record whether `b` is
dense; build the multigrid preconditioner only when requested *and*
available; initialise the remainder accumulator to
`np.ones(b.shape[0], dtype=np.float32)`; run the column loop over all but
the last column of `b`; append the accumulator as the final column; return
`np.array(pu, dtype=np.float32).T`. -/
def solve_cg_mg (cgO : CGOracle) (use_direct_solver_mg : Bool) (A : Mat)
    (b : Arr) (tol : ℚ) (pre_conditioner : Option Bool) : Arr :=
  let Ac := csr_matrix A
  let check_type := b.isDense
  let M : Option Precond :=
    if pyTruthy pre_conditioner && !use_direct_solver_mg then
      some (mg_preconditioner Ac)
    else
      none
  let pu_sum0 : Vecq := List.replicate b.nrows 1
  let r := cgColumns cgO Ac tol M check_type (b.cols.take (b.cols.length - 1)) pu_sum0
  { dtype := .f32, isDense := true, nrows := b.nrows, cols := r.1 ++ [r.2] }

/-- `solve_cg(A, b, tol=1.e-3)` from `solvers.py`: delegates to
`solve_cg_mg` with `pre_conditioner=None`. -/
def solve_cg (cgO : CGOracle) (use_direct_solver_mg : Bool) (A : Mat)
    (b : Arr) (tol : ℚ) : Arr :=
  solve_cg_mg cgO use_direct_solver_mg A b tol none

/-- Sum of the entries of row `r` across the columns of an array (missing
entries read as `0`, as `getD` requires a default; the theorems always work
below the row count). -/
def rowSum (X : Arr) (r : Nat) : ℚ :=
  (X.cols.map (fun c => c.getD r 0)).sum

/-- The behaviour of the external `scipy.sparse.linalg.spsolve(A, b,
use_umfpack=True)` routine, as seen by this repository: a function from the
matrix and the right-hand side to the array it returns.  `direct_solver`
adds nothing around it. -/
abbrev SpsolveOracle := Mat → Arr → Arr

/-- `direct_solver(A, b)` from `solvers.py`: a bare wrapper around scipy's
`spsolve` — no cast, no check, no error handling of its own. -/
def direct_solver (spsolveO : SpsolveOracle) (A : Mat) (b : Arr) : Arr :=
  spsolveO A b

/-- The behaviour of the external `sksparse.cholmod.cholesky(A)` call: it
returns a factorization object whose `solve_A` method maps a right-hand-side
column to a solution column. -/
abbrev CholOracle := Mat → (Vecq → Vecq)

/-- `cholesky_solver(A, b)` from `solvers.py`.  `use_cholesky` is the
module-level flag recording that the sksparse import *failed* (note the
inverted sense in the source: `use_cholesky = True` in the `except` branch),
in which case the whole call falls back to `direct_solver`.  Otherwise `A`
is factorized once (`A_solver = cholesky(A)`), the result is allocated with
`np.empty_like(b)` — hence with `b`'s dtype and container kind — and each
column of `b` is solved against the cached factorization; the per-column
`np.array(_, dtype=np.float32)` casts (taken on either the ndarray or the
`.toarray()` branch) are value preserving in the model, and the values land
in an array of `b`'s dtype. -/
def cholesky_solver (spsolveO : SpsolveOracle) (cholesky : CholOracle)
    (use_cholesky : Bool) (A : Mat) (b : Arr) : Arr :=
  if use_cholesky then direct_solver spsolveO A b
  else
    let A_solver := cholesky A
    { dtype := b.dtype, isDense := b.isDense, nrows := b.nrows,
      cols := b.cols.map (fun c => astype_f32 (A_solver c)) }

/-- The behaviour of the external `cupyx.scipy.sparse.linalg.splu(A_gpu)`
call: a device-side factorization object whose `solve` method maps a
right-hand-side column to a solution column. -/
abbrev SpluOracle := Mat → (Vecq → Vecq)

/-- `solve_gpu(A, b)` from `solvers.py`.  The host-side cast
`b.astype(np.float32)` / `b.todense().astype(np.float32)`, the device
transfers of `b` and of `A`'s csr components (with `A.data` cast to
float32), and the final `cp.asnumpy` / `np.array(pu, dtype=np.float32)`
round trip are value preserving in the model.  The loop
`for i in range(b.shape[-1])` assigns every column of the `cp.zeros_like`
result buffer, so the returned columns are exactly the per-column
factorization solves — every column of `b` is solved, including the
last. -/
def solve_gpu (splu : SpluOracle) (A : Mat) (b : Arr) : Arr :=
  let A_splu := splu A
  { dtype := .f32, isDense := true, nrows := b.nrows,
    cols := b.cols.map (fun c => A_splu c) }

/-- The behaviour of the external `cupyx.scipy.sparse.linalg.cg(A, v, tol)`
call: it returns the pair `(x, info)`. -/
abbrev GpuCGOracle := Mat → Vecq → ℚ → Vecq × Int

/-- `solve_gpu_cg(A, b)` from `solvers.py`: same transfers as `solve_gpu`,
but each column is solved by device-side cg at the fixed tolerance `1.e-3`,
keeping only the solution component (`pu[:, i], _ = cg(...)`).  The loop
runs over `range(b.shape[-1])`: every column is solved, including the
last. -/
def solve_gpu_cg (cgdev : GpuCGOracle) (A : Mat) (b : Arr) : Arr :=
  { dtype := .f32, isDense := true, nrows := b.nrows,
    cols := b.cols.map (fun c => (cgdev A c (1 / 1000)).1) }

/-- The warnings the module emits at import time, one per missing guarded
backend. -/
inductive BackendWarning
  | pyamgMissing
  | sksparseMissing
  deriving DecidableEq

/-- The module-level state established by importing
`rwtools/graphtools/solvers.py`: the two fallback flags and the warnings
emitted. -/
structure ModuleState where
  use_direct_solver_mg : Bool
  use_cholesky : Bool
  warnings : List BackendWarning
  deriving DecidableEq

/-- Module import of `solvers.py` as a function of which optional backends
are present.  `try: import pyamg / except ImportError` and
`try: from sksparse.cholmod import cholesky / except ImportError` each set a
fallback flag and warn once when the backend is missing; but
`import cupy` (line 22) is *unguarded*, so when cupy is absent the
`ImportError` propagates and the module fails to import (`none`). -/
def moduleInit (pyamg_available cupy_available sksparse_available : Bool) :
    Option ModuleState :=
  let use_direct_solver_mg := !pyamg_available
  let w1 : List BackendWarning :=
    if pyamg_available then [] else [.pyamgMissing]
  if !cupy_available then none
  else
    let use_cholesky := !sksparse_available
    let w2 : List BackendWarning :=
      if sksparse_available then [] else [.sksparseMissing]
    some { use_direct_solver_mg := use_direct_solver_mg,
           use_cholesky := use_cholesky, warnings := w1 ++ w2 }

section Lemmas

lemma vsub_length (a x : Vecq) : (vsub a x).length = min a.length x.length := by
  simp [vsub]

lemma vsub_getD : ∀ (a x : Vecq) (r : Nat), r < a.length → r < x.length →
    (vsub a x).getD r 0 = a.getD r 0 - x.getD r 0 := by
  intro a
  induction a with
  | nil => intro x r h; exact absurd h (Nat.not_lt_zero r)
  | cons p a ih =>
    intro x r hx hr
    cases x with
    | nil => exact absurd hr (Nat.not_lt_zero r)
    | cons q x =>
      cases r with
      | zero => simp [vsub]
      | succ r =>
        have h1 : r < a.length := Nat.lt_of_succ_lt_succ hx
        have h2 : r < x.length := Nat.lt_of_succ_lt_succ hr
        simpa [vsub] using ih x r h1 h2

lemma replicate_getD (n r : Nat) (hr : r < n) :
    (List.replicate n (1 : ℚ)).getD r 0 = 1 := by
  induction n generalizing r with
  | zero => exact absurd hr (Nat.not_lt_zero r)
  | succ n ih =>
    cases r with
    | zero => simp [List.replicate]
    | succ r =>
      have := ih r (Nat.lt_of_succ_lt_succ hr)
      simpa [List.replicate] using this

/-- Unfolding the column loop on an empty column list. -/
lemma cgColumns_nil (cgO : CGOracle) (Ac : Mat) (tol : ℚ) (M : Option Precond)
    (ct : Bool) (acc : Vecq) : cgColumns cgO Ac tol M ct [] acc = ([], acc) :=
  rfl

/-- Unfolding one iteration of the column loop: the dense/sparse branch and
the precision casts are value preserving, so both branches feed the raw
column to the cg oracle. -/
lemma cgColumns_cons (cgO : CGOracle) (Ac : Mat) (tol : ℚ) (M : Option Precond)
    (ct : Bool) (c : Vecq) (cs : List Vecq) (acc : Vecq) :
    cgColumns cgO Ac tol M ct (c :: cs) acc =
      ((cgO Ac c tol M).1
          :: (cgColumns cgO Ac tol M ct cs (vsub acc (cgO Ac c tol M).1)).1,
        (cgColumns cgO Ac tol M ct cs (vsub acc (cgO Ac c tol M).1)).2) := by
  cases ct <;> rfl

/-- The column loop maintains the row-wise invariant
`Σ solved columns + remainder = initial accumulator`, provided the cg oracle
preserves vector lengths (scipy's `cg` returns `x` with the shape of its
right-hand side) and the iterated columns all have the accumulator's
length. -/
lemma cgColumns_rowSum (cgO : CGOracle) (Ac : Mat) (tol : ℚ)
    (M : Option Precond) (ct : Bool)
    (HL : ∀ A v t Mo, ((cgO A v t Mo).1).length = v.length) :
    ∀ (cs : List Vecq) (acc : Vecq) (r : Nat),
      (∀ c ∈ cs, c.length = acc.length) → r < acc.length →
      ((cgColumns cgO Ac tol M ct cs acc).1.map (fun c => c.getD r 0)).sum
        + (cgColumns cgO Ac tol M ct cs acc).2.getD r 0 = acc.getD r 0 := by
  intro cs
  induction cs with
  | nil =>
    intro acc r _ _
    simp [cgColumns_nil]
  | cons c cs ih =>
    intro acc r hlen hr
    have hc : c.length = acc.length := hlen c (List.mem_cons_self c cs)
    have hpu : ((cgO Ac c tol M).1).length = acc.length := by
      rw [HL]; exact hc
    have hacc' : (vsub acc (cgO Ac c tol M).1).length = acc.length := by
      rw [vsub_length, hpu, Nat.min_self]
    have hlen' : ∀ c' ∈ cs, c'.length = (vsub acc (cgO Ac c tol M).1).length := by
      intro c' hc'
      rw [hacc']
      exact hlen c' (List.mem_cons_of_mem c hc')
    have hr' : r < (vsub acc (cgO Ac c tol M).1).length := by
      rw [hacc']; exact hr
    have IH := ih (vsub acc (cgO Ac c tol M).1) r hlen' hr'
    have hsub := vsub_getD acc ((cgO Ac c tol M).1) r hr (by rw [hpu]; exact hr)
    rw [cgColumns_cons]
    simp only [List.map_cons, List.sum_cons]
    rw [add_assoc, IH, hsub]
    ring

/-- The column loop produces one solved column per iterated column. -/
lemma cgColumns_fst_length (cgO : CGOracle) (Ac : Mat) (tol : ℚ)
    (M : Option Precond) (ct : Bool) :
    ∀ (cs : List Vecq) (acc : Vecq),
      (cgColumns cgO Ac tol M ct cs acc).1.length = cs.length := by
  intro cs
  induction cs with
  | nil => intro acc; simp [cgColumns_nil]
  | cons c cs ih => intro acc; rw [cgColumns_cons]; simp [ih]

/-- `solve_cg_mg` characterized: its columns are the cg-solved columns of all
but the last column of `b`, followed by the remainder accumulator. -/
lemma solve_cg_mg_cols (cgO : CGOracle) (usd : Bool) (A : Mat) (b : Arr)
    (tol : ℚ) (pc : Option Bool) :
    (solve_cg_mg cgO usd A b tol pc).cols
      = (cgColumns cgO (csr_matrix A) tol
            (if pyTruthy pc && !usd then some (mg_preconditioner (csr_matrix A)) else none)
            b.isDense (b.cols.take (b.cols.length - 1))
            (List.replicate b.nrows 1)).1
        ++ [(cgColumns cgO (csr_matrix A) tol
            (if pyTruthy pc && !usd then some (mg_preconditioner (csr_matrix A)) else none)
            b.isDense (b.cols.take (b.cols.length - 1))
            (List.replicate b.nrows 1)).2] :=
  rfl

/-- The column loop depends only on the solution component of the cg
oracle's output: two oracles agreeing on `x` but differing on `info` run
identically. -/
lemma cgColumns_congr_sol (f g : CGOracle)
    (h : ∀ A v t Mo, (f A v t Mo).1 = (g A v t Mo).1) (Ac : Mat) (tol : ℚ)
    (M : Option Precond) (ct : Bool) :
    ∀ (cs : List Vecq) (acc : Vecq),
      cgColumns f Ac tol M ct cs acc = cgColumns g Ac tol M ct cs acc := by
  intro cs
  induction cs with
  | nil => intro acc; rw [cgColumns_nil, cgColumns_nil]
  | cons c cs ih =>
    intro acc
    rw [cgColumns_cons, cgColumns_cons, h, ih]

/-- `getD` commutes with `map` below the length. -/
lemma getD_map_lt (f : Vecq → Vecq) (l : List Vecq) (i : Nat)
    (hi : i < l.length) : (l.map f).getD i [] = f (l.getD i []) := by
  induction l generalizing i with
  | nil => exact absurd hi (Nat.not_lt_zero i)
  | cons c cs ih =>
    cases i with
    | zero => rfl
    | succ i =>
      rw [List.map_cons, List.getD_cons_succ, List.getD_cons_succ]
      exact ih i (Nat.lt_of_succ_lt_succ hi)

end Lemmas

section Fixtures

/-- A cg oracle behaving as exact convergence on a unit-diagonal system: it
returns the right-hand side itself with `info = 0`. -/
def cgExactId : CGOracle := fun _ v _ _ => (v, 0)

/-- A cg oracle behaving as a run that exhausts its iteration budget: it
returns only a crude approximation (half the right-hand side) and reports
`info = 5` (scipy: tolerance not achieved within `maxiter = 5`
iterations). -/
def cgHalfInfo5 : CGOracle := fun _ v _ _ => (v.map (fun q => q / 2), 5)

/-- The same approximate solution as `cgHalfInfo5` but reporting convergence
(`info = 0`). -/
def cgHalfInfo0 : CGOracle := fun _ v _ _ => (v.map (fun q => q / 2), 0)

/-- A GPU factorization oracle solving a unit-diagonal system. -/
def spluId : SpluOracle := fun _ v => v

/-- A device-side cg oracle returning half the right-hand side. -/
def cgdevHalf : GpuCGOracle := fun _ v _ => (v.map (fun q => q / 2), 0)

/-- An spsolve oracle returning its right-hand side unchanged. -/
def spsolveRaw : SpsolveOracle := fun _ b => b

/-- A Cholesky factorization oracle solving a unit-diagonal system. -/
def cholId : CholOracle := fun _ v => v

/-- The 2×2 identity matrix. -/
def matI2 : Mat := [[1, 0], [0, 1]]

/-- The 4×4 identity matrix (the "identity-like diagonal Laplacian stub" of
the column-count scenario). -/
def matI4 : Mat := [[1, 0, 0, 0], [0, 1, 0, 0], [0, 0, 1, 0], [0, 0, 0, 1]]

/-- A singular (maximally ill-conditioned) 2×2 matrix. -/
def matIll : Mat := [[1, 1], [1, 1]]

/-- A dense float32 2×2 right-hand side with one seed per label. -/
def bUnit2 : Arr := { dtype := .f32, isDense := true, nrows := 2, cols := [[1, 0], [0, 1]] }

/-- The 4×2 right-hand side of the column-count scenario: one seed per
label. -/
def bSeeds42 : Arr :=
  { dtype := .f32, isDense := true, nrows := 4, cols := [[1, 0, 0, 0], [0, 0, 0, 1]] }

/-- A float64 dense 2×2 right-hand side. -/
def bF64 : Arr := { dtype := .f64, isDense := true, nrows := 2, cols := [[1, 0], [0, 1]] }

/-- A single-column, sparse, float64 right-hand side with arbitrary
values. -/
def bOneCol : Arr := { dtype := .f64, isDense := false, nrows := 3, cols := [[5, 7, 11]] }

end Fixtures

/-- **C1.** For every multi-label CPU solve via `solve_cg_mg` on a
right-hand-side matrix `b` with at least one column, every row of the
returned matrix sums to 1 (exactly, in the idealized arithmetic — "within
floating tolerance" in the implementation), because the last column is
constructed as 1 minus the sum of all previously solved columns; this holds
whether or not the preconditioner is available (`pc` and
`use_direct_solver_mg` are arbitrary), for any behaviour of the external cg
routine that returns solutions of the right-hand side's length. -/
theorem solve_cg_mg_rows_sum_to_one (cgO : CGOracle)
    (HL : ∀ A v t Mo, ((cgO A v t Mo).1).length = v.length)
    (usd : Bool) (A : Mat) (b : Arr) (tol : ℚ) (pc : Option Bool)
    (_hb : 1 ≤ b.cols.length)
    (hcols : ∀ c ∈ b.cols, c.length = b.nrows)
    (r : Nat) (hr : r < b.nrows) :
    rowSum (solve_cg_mg cgO usd A b tol pc) r = 1 := by
  have hcols' : ∀ c ∈ b.cols.take (b.cols.length - 1),
      c.length = (List.replicate b.nrows (1 : ℚ)).length := by
    intro c hc
    rw [List.length_replicate]
    exact hcols c (List.mem_of_mem_take hc)
  have hr' : r < (List.replicate b.nrows (1 : ℚ)).length := by
    rw [List.length_replicate]; exact hr
  have key := cgColumns_rowSum cgO (csr_matrix A) tol
    (if pyTruthy pc && !usd then some (mg_preconditioner (csr_matrix A)) else none)
    b.isDense HL (b.cols.take (b.cols.length - 1))
    (List.replicate b.nrows 1) r hcols' hr'
  rw [rowSum, solve_cg_mg_cols, List.map_append, List.sum_append]
  simp only [List.map_cons, List.map_nil, List.sum_cons, List.sum_nil, add_zero]
  rw [key]
  exact replicate_getD b.nrows r hr

/-- Witness for **C1** at a concrete input: a 2-column seed matrix on the
2×2 identity system with the exact-convergence oracle. -/
theorem solve_cg_mg_rows_sum_to_one_witness :
    rowSum (solve_cg_mg cgExactId false matI2 bUnit2 (1 / 1000) (some true)) 0 = 1 :=
  solve_cg_mg_rows_sum_to_one cgExactId (fun _ _ _ _ => rfl) false matI2 bUnit2
    (1 / 1000) (some true) (by decide) (by decide) 0 (by decide)

/-- **C2, counterexample.** The claim — that a non-converged cg run is
surfaced as a distinguishable condition rather than silently mixed into the
result — is false of the code: `solve_cg_mg` keeps only `cg(...)[0]` and
drops scipy's `info` flag.  Concretely, with a singular (maximally
ill-conditioned) `A`, tolerance `1e-12`, and a cg behaviour that reports
`info = 5` (budget of 5 iterations exhausted) alongside a crude
approximation, the returned value is an ordinary numeric matrix containing
the approximate column, identical to the value returned when the same
approximation is reported as converged (`info = 0`): the caller cannot
distinguish non-convergence. -/
theorem solve_cg_mg_nonconvergence_cex :
    (solve_cg_mg cgHalfInfo5 false matIll bUnit2 (1 / 1000000000000) none).cols
        = [[1 / 2, 0], [1 / 2, 1]]
    ∧ solve_cg_mg cgHalfInfo5 false matIll bUnit2 (1 / 1000000000000) none
        = solve_cg_mg cgHalfInfo0 false matIll bUnit2 (1 / 1000000000000) none := by
  refine ⟨?_, rfl⟩
  rw [solve_cg_mg_cols]
  norm_num [bUnit2, matIll, cgHalfInfo5, cgColumns_cons, cgColumns_nil, vsub,
    List.replicate_succ]

/-- **C2, amended.** `solve_cg_mg` (and hence `solve_cg`) discards the
convergence indicator of the external cg routine: its result depends only on
the solution component of the cg output, so a column that failed to converge
within the iteration budget is returned silently, mixed with converged
columns, with no distinguishable non-convergence condition surfaced to the
caller. -/
theorem solve_cg_mg_ignores_convergence_info (f g : CGOracle)
    (h : ∀ A v t Mo, (f A v t Mo).1 = (g A v t Mo).1)
    (usd : Bool) (A : Mat) (b : Arr) (tol : ℚ) (pc : Option Bool) :
    solve_cg_mg f usd A b tol pc = solve_cg_mg g usd A b tol pc := by
  simp only [solve_cg_mg]
  rw [cgColumns_congr_sol f g h]

/-- Witness for the amended **C2** at a concrete input: oracles differing
only in the reported `info` produce identical results. -/
theorem solve_cg_mg_ignores_convergence_info_witness :
    solve_cg_mg cgHalfInfo5 true matI2 bSeeds42 (1 / 100) (some false)
      = solve_cg_mg cgHalfInfo0 true matI2 bSeeds42 (1 / 100) (some false) :=
  solve_cg_mg_ignores_convergence_info cgHalfInfo5 cgHalfInfo0
    (fun _ _ _ _ => rfl) true matI2 bSeeds42 (1 / 100) (some false)

/-- **C3, counterexample.** The claim expects `X` of shape `4×3` for a `4×2`
right-hand side `B` (and, generally, `N×L` output for `N×(L−1)` input).  The
code instead loops over `range(b.shape[-1] - 1)` — it solves only the first
column of a two-column `B`, ignores `B`'s second column, and appends the
remainder, returning a matrix with exactly as many columns as `B`: here `2`,
not `3`. -/
theorem solve_cg_mg_shape_cex :
    (solve_cg_mg cgExactId false matI4 bSeeds42 (1 / 1000) (some true)).cols.length = 2
    ∧ (solve_cg_mg cgExactId false matI4 bSeeds42 (1 / 1000) (some true)).cols.length ≠ 3 := by
  decide

/-- **C3, amended.** For `B` of shape `N×M` with `M ≥ 1` the CPU multi-label
solver returns `X` of shape `N×M` (same column count as `B`, not `M+1`): it
solves the first `M−1` columns and derives the last result column as 1 minus
the sum of the solved columns row-wise; in the 4×4 identity-Laplacian
scenario with `B` of shape `4×2`, `X` has shape `4×2` and its last column
equals `1 − col0`'s solution. -/
theorem solve_cg_mg_shape_and_completion (cgO : CGOracle)
    (HL : ∀ A v t Mo, ((cgO A v t Mo).1).length = v.length)
    (usd : Bool) (A : Mat) (b : Arr) (tol : ℚ) (pc : Option Bool)
    (hb : 1 ≤ b.cols.length)
    (hcols : ∀ c ∈ b.cols, c.length = b.nrows)
    (r : Nat) (hr : r < b.nrows) :
    (solve_cg_mg cgO usd A b tol pc).cols.length = b.cols.length
    ∧ ((solve_cg_mg cgO usd A b tol pc).cols.getLastD []).getD r 0
        = 1 - (((solve_cg_mg cgO usd A b tol pc).cols.dropLast).map
            (fun c => c.getD r 0)).sum := by
  have hcols' : ∀ c ∈ b.cols.take (b.cols.length - 1),
      c.length = (List.replicate b.nrows (1 : ℚ)).length := by
    intro c hc
    rw [List.length_replicate]
    exact hcols c (List.mem_of_mem_take hc)
  have hr' : r < (List.replicate b.nrows (1 : ℚ)).length := by
    rw [List.length_replicate]; exact hr
  have key := cgColumns_rowSum cgO (csr_matrix A) tol
    (if pyTruthy pc && !usd then some (mg_preconditioner (csr_matrix A)) else none)
    b.isDense HL (b.cols.take (b.cols.length - 1))
    (List.replicate b.nrows 1) r hcols' hr'
  rw [replicate_getD b.nrows r hr] at key
  constructor
  · rw [solve_cg_mg_cols, List.length_append, cgColumns_fst_length, List.length_take]
    simp only [List.length_cons, List.length_nil]
    omega
  · rw [solve_cg_mg_cols, List.getLastD_concat, List.dropLast_concat]
    linarith [key]

/-- Witness for the amended **C3** at the 4×2 scenario input. -/
theorem solve_cg_mg_shape_and_completion_witness :
    (solve_cg_mg cgExactId false matI4 bSeeds42 (1 / 1000) (some true)).cols.length
        = bSeeds42.cols.length
    ∧ ((solve_cg_mg cgExactId false matI4 bSeeds42 (1 / 1000) (some true)).cols.getLastD []).getD 0 0
        = 1 - (((solve_cg_mg cgExactId false matI4 bSeeds42 (1 / 1000) (some true)).cols.dropLast).map
            (fun c => c.getD 0 0)).sum :=
  solve_cg_mg_shape_and_completion cgExactId (fun _ _ _ _ => rfl) false matI4
    bSeeds42 (1 / 1000) (some true) (by decide) (by decide) 0 (by decide)

/-- **C4.** Calling `solve_cg_mg` with `pre_conditioner=True` while the
multigrid backend is unavailable (`use_direct_solver_mg = True`) does not
fail and returns exactly the result of the plain CG solver `solve_cg` on the
same inputs: the guard `pre_conditioner and not use_direct_solver_mg` makes
`M = None` on both paths, so the preconditioner is silently dropped.  This
holds for every `A`, `b`, tolerance, and every behaviour of the external cg
routine. -/
theorem solve_cg_mg_precond_unavailable_eq_solve_cg (cgO : CGOracle)
    (A : Mat) (b : Arr) (tol : ℚ) :
    solve_cg_mg cgO true A b tol (some true) = solve_cg cgO true A b tol :=
  rfl

/-- **C5, counterexample.** The claim — that the absence of any one optional
backend never prevents the others and never makes the CPU solvers unusable —
is false of the code: the pyamg and sksparse imports are guarded by
`try/except`, but `import cupy` (line 22 of `solvers.py`) is not, so with
pyamg and sksparse present and the GPU backend absent the module import
raises `ImportError` (modelled as `none`): no flags are established and
every solver in the module is unusable. -/
theorem moduleInit_gpu_missing_aborts : moduleInit true false true = none :=
  rfl

/-- **C5, amended.** Probing of the two *guarded* backends (multigrid and
CPU Cholesky) is independent and non-fatal: whenever the GPU backend is
present, module import succeeds for every combination of pyamg/sksparse
availability, each missing guarded backend only sets its fallback flag and
emits its one-time warning, and neither affects the other's flag.  The GPU
backend (cupy), however, is imported unconditionally: when it is absent the
module import aborts, regardless of the other backends. -/
theorem moduleInit_guarded_backends_independent (p s : Bool) :
    moduleInit p true s
      = some { use_direct_solver_mg := !p, use_cholesky := !s,
               warnings := (if p then [] else [BackendWarning.pyamgMissing])
                 ++ (if s then [] else [BackendWarning.sksparseMissing]) }
    ∧ moduleInit p false s = none := by
  cases p <;> cases s <;> exact ⟨rfl, rfl⟩

/-- **C6.** When the CPU Cholesky backend is unavailable
(`use_cholesky = True`, i.e. the sksparse import failed), `cholesky_solver`
returns exactly `direct_solver(A, b)` for every `A` and `b` and every
behaviour of the external routines: the fallback is the whole strategy, not
per-column. -/
theorem cholesky_solver_unavailable_eq_direct (spsolveO : SpsolveOracle)
    (cholesky : CholOracle) (A : Mat) (b : Arr) :
    cholesky_solver spsolveO cholesky true A b = direct_solver spsolveO A b :=
  rfl

/-- **C8, counterexample.** The claim — that every solver strategy returns
float32 entries regardless of `b`'s dtype and path — is false of the code:
`cholesky_solver`'s factorization path allocates its result with
`np.empty_like(b)`, so for a float64 `b` the returned array is float64 (the
per-column float32 casts are converted back on assignment into the float64
buffer). -/
theorem cholesky_solver_dtype_cex :
    (cholesky_solver spsolveRaw cholId false matI2 bF64).dtype ≠ DType.f32 := by
  decide

/-- **C8, amended.** The CPU CG solver and both GPU solvers do return
float32 matrices (they build their results with an explicit
`dtype=np.float32`); but `cholesky_solver`'s factorization path returns an
array of `b`'s dtype (float32 only when `b` already is float32), and
`direct_solver` — also the target of the Cholesky-unavailable fallback —
applies no cast at all: it returns the external `spsolve` result unchanged,
whatever its precision. -/
theorem solver_output_dtypes (cgO : CGOracle) (usd : Bool) (A : Mat)
    (b : Arr) (tol : ℚ) (pc : Option Bool) (spsolveO : SpsolveOracle)
    (cholesky : CholOracle) (splu : SpluOracle) (cgdev : GpuCGOracle) :
    (solve_cg_mg cgO usd A b tol pc).dtype = DType.f32
    ∧ (solve_gpu splu A b).dtype = DType.f32
    ∧ (solve_gpu_cg cgdev A b).dtype = DType.f32
    ∧ (cholesky_solver spsolveO cholesky false A b).dtype = b.dtype
    ∧ direct_solver spsolveO A b = spsolveO A b :=
  ⟨rfl, rfl, rfl, rfl, rfl⟩

/-- **C9.** The GPU solvers solve every column of `B` explicitly — the loops
run over `range(b.shape[-1])`, with no Probability-Completion shortcut — so
for `B` with `M` columns the returned matrix has exactly `M` columns, and
column `i` is the device solver's solution for `B[:, i]` for every `i < M`,
including the last: the factorization solve for `solve_gpu`, and the
solution component of device cg at the fixed tolerance `1e-3` for
`solve_gpu_cg`. -/
theorem gpu_solvers_solve_every_column (splu : SpluOracle)
    (cgdev : GpuCGOracle) (A : Mat) (b : Arr) (i : Nat)
    (hi : i < b.cols.length) :
    (solve_gpu splu A b).cols.length = b.cols.length
    ∧ (solve_gpu_cg cgdev A b).cols.length = b.cols.length
    ∧ (solve_gpu splu A b).cols.getD i [] = splu A (b.cols.getD i [])
    ∧ (solve_gpu_cg cgdev A b).cols.getD i []
        = (cgdev A (b.cols.getD i []) (1 / 1000)).1 := by
  refine ⟨?_, ?_, ?_, ?_⟩
  · simp [solve_gpu]
  · simp [solve_gpu_cg]
  · exact getD_map_lt (splu A) b.cols i hi
  · exact getD_map_lt (fun c => (cgdev A c (1 / 1000)).1) b.cols i hi

/-- Witness for **C9** at a concrete input, taken at the *last* column
(`i = 1` of a 2-column `B`), which the CPU path would not solve. -/
theorem gpu_solvers_solve_every_column_witness :
    (solve_gpu spluId matI2 bUnit2).cols.length = bUnit2.cols.length
    ∧ (solve_gpu_cg cgdevHalf matI2 bUnit2).cols.length = bUnit2.cols.length
    ∧ (solve_gpu spluId matI2 bUnit2).cols.getD 1 []
        = spluId matI2 (bUnit2.cols.getD 1 [])
    ∧ (solve_gpu_cg cgdevHalf matI2 bUnit2).cols.getD 1 []
        = (cgdevHalf matI2 (bUnit2.cols.getD 1 []) (1 / 1000)).1 :=
  gpu_solvers_solve_every_column spluId cgdevHalf matI2 bUnit2 1 (by decide)

/-- **C10.** For every `A` and every right-hand side `b` with exactly one
column, `solve_cg_mg` (and hence `solve_cg`, which delegates to it) performs
zero cg solves — the loop `range(b.shape[-1] - 1)` is empty — and returns
the initial remainder accumulator `np.ones(b.shape[0], dtype=np.float32)`
untouched, as a single all-ones column of length `N`, independent of the
values in `A` and `b` and of the cg behaviour (`cgO` is arbitrary and
unused). -/
theorem solve_cg_mg_single_column_all_ones (cgO : CGOracle) (usd : Bool)
    (A : Mat) (b : Arr) (tol : ℚ) (pc : Option Bool)
    (h : b.cols.length = 1) :
    solve_cg_mg cgO usd A b tol pc
      = { dtype := DType.f32, isDense := true, nrows := b.nrows,
          cols := [List.replicate b.nrows 1] } := by
  have h0 : b.cols.length - 1 = 0 := by omega
  simp [solve_cg_mg, h0, List.take_zero, cgColumns_nil]

/-- Witness for **C10** at a concrete input: a sparse float64 single-column
`b` with arbitrary values, a singular `A`, and a non-trivial cg behaviour
still produce the all-ones column. -/
theorem solve_cg_mg_single_column_all_ones_witness :
    solve_cg_mg cgHalfInfo5 true matIll bOneCol (1 / 1000) (some false)
      = { dtype := DType.f32, isDense := true, nrows := 3,
          cols := [List.replicate 3 1] } :=
  solve_cg_mg_single_column_all_ones cgHalfInfo5 true matIll bOneCol (1 / 1000)
    (some false) (by decide)
